import Mathlib

/-!
Shallow embedding of the Session Management (SM) plane of the eRPC
repository: the data model of `src/session.h`, the retry engine of
`src/rpc_impl/rpc_sm_retry.cc`, and the constants of `src/rpc.h`.
C++ assertions (and the `assert(false); exit(-1)` default branch) are
embedded as `Option`: `none` is an assertion failure.  Machine `uint64_t`
subtraction is modelled on `Nat` with an explicit `% 2 ^ 64`.  The
`double` millisecond arithmetic of the source is modelled over `ℚ`.
-/

namespace ERpc

/-- `kSessionMgmtRetransMs` from `rpc.h`: retransmission interval (ms) for
session management requests. -/
def kSessionMgmtRetransMs : Nat := 5

/-- `kSessionMgmtTimeoutMs` from `rpc.h`: timeout (ms) for session
management requests.  (Declared in the source; `rpc_sm_retry.cc` never
reads it.) -/
def kSessionMgmtTimeoutMs : Nat := 50

/-- `kMaxSessionsPerThread` from `session.h`. -/
def kMaxSessionsPerThread : Nat := 1024

/-- `SessionState` from `session.h`. -/
inductive SessionState where
  | kConnectInProgress
  | kConnected
  | kDisconnectInProgress
  | kDisconnected
  | kError
  deriving DecidableEq, Repr

/-- `Session::Role` from `session.h`. -/
inductive Role where
  | kServer
  | kClient
  deriving DecidableEq, Repr

/-- `SessionMgmtErrType` (values listed in `sm_types.cc` / spec §7). -/
inductive SessionMgmtErrType where
  | kNoError
  | kSrvDisconnected
  | kRingExhausted
  | kOutOfMemory
  | kRoutingResolutionFailure
  | kInvalidRemoteRpcId
  | kInvalidTransport
  deriving DecidableEq, Repr

/-- `SessionMetadata` from `session.h`.  `hostname` is the byte contents of
the fixed `char` buffer (zero-terminated in well-formed metadata);
`transport_type` and `routing_info` are kept abstract as numbers/bytes. -/
structure SessionMetadata where
  transport_type : Nat
  hostname : List Nat
  app_tid : Nat
  phy_port : Nat
  session_num : Nat
  start_seq : Nat
  routing_info : List Nat
  deriving DecidableEq, Repr

/-- C `strcmp(a, b) == 0` on byte buffers: compare until a mismatch or a
common zero terminator. -/
def cstrEq : List Nat → List Nat → Bool
  | [], [] => true
  | [], _ :: _ => false
  | _ :: _, [] => false
  | a :: as, b :: bs =>
    if a ≠ b then false else if a = 0 then true else cstrEq as bs

/-- `SessionMetadata::operator==` from `session.h`: compares only the
location fields — `strcmp(hostname) == 0`, `app_tid`, `session_num`. -/
def SessionMetadata.opEq (m o : SessionMetadata) : Bool :=
  cstrEq m.hostname o.hostname && m.app_tid == o.app_tid &&
    m.session_num == o.session_num

/-- `Session` from `session.h` (the SM-relevant fields). -/
structure Session where
  role : Role
  state : SessionState
  client : SessionMetadata
  server : SessionMetadata
  mgmt_req_tsc : Nat
  is_cc : Bool
  deriving DecidableEq, Repr

/-- `Session::is_client()`: the session's role is client. -/
def Session.is_client (s : Session) : Bool := s.role == Role.kClient

/-- Modelled from the spec: `session_mgmt_types.h` is not under `src/`.
Spec §6 gives the packet types Connect Req, Connect Resp, Disconnect Req,
Disconnect Resp. -/
inductive SessionMgmtPktType where
  | kConnectReq
  | kConnectResp
  | kDisconnectReq
  | kDisconnectResp
  deriving DecidableEq, Repr

/-- Modelled from the spec: `session_mgmt_types.h` is not under `src/`.
Whether a packet type is a request type. -/
def session_mgmt_is_pkt_type_req : SessionMgmtPktType → Bool
  | SessionMgmtPktType.kConnectReq => true
  | SessionMgmtPktType.kDisconnectReq => true
  | _ => false

/-- Modelled from the spec: `session_mgmt_types.h` is not under `src/`.
Spec §4.3: "flip the request type to the corresponding response type";
defined only on request types. -/
def session_mgmt_pkt_type_req_to_resp : SessionMgmtPktType → Option SessionMgmtPktType
  | SessionMgmtPktType.kConnectReq => some SessionMgmtPktType.kConnectResp
  | SessionMgmtPktType.kDisconnectReq => some SessionMgmtPktType.kDisconnectResp
  | _ => none

/-- `SessionMgmtPkt` from `session.h`.  The one-argument C++ constructor
leaves `err_type` uninitialized; the embedding fills `kNoError` there,
and no claim depends on a request's `err_type`. -/
structure SessionMgmtPkt where
  pkt_type : SessionMgmtPktType
  err_type : SessionMgmtErrType
  client : SessionMetadata
  server : SessionMetadata
  deriving DecidableEq, Repr

/-- One UDP datagram produced by `SessionMgmtPkt::send_to`: destination
hostname bytes and the packet sent "as is". -/
structure SentPkt where
  dst : List Nat
  pkt : SessionMgmtPkt
  deriving DecidableEq, Repr

/-- `SessionMgmtPkt::send_resp_mut` from `session.h`: asserts the packet is
a request, flips the type to the corresponding response, writes the error
kind, and sends the mutated packet to `client.hostname`.  Returns the
mutated packet and the destination; `none` on assertion failure. -/
def SessionMgmtPkt.send_resp_mut (pkt : SessionMgmtPkt) (e : SessionMgmtErrType) :
    Option (SessionMgmtPkt × List Nat) :=
  if session_mgmt_is_pkt_type_req pkt.pkt_type then
    match session_mgmt_pkt_type_req_to_resp pkt.pkt_type with
    | some t =>
      let p2 : SessionMgmtPkt := { pkt with pkt_type := t, err_type := e }
      some (p2, p2.client.hostname)
    | none => none
  else none

/-- `Rpc::send_connect_req_one` from `rpc_sm_retry.cc`: asserts a client
session in `kConnectInProgress`, then sends a `kConnectReq` carrying the
session's two metadata records to `server.hostname`. -/
def send_connect_req_one (s : Session) : Option SentPkt :=
  if s.is_client && (s.state == SessionState.kConnectInProgress) then
    some { dst := s.server.hostname,
           pkt := { pkt_type := SessionMgmtPktType.kConnectReq,
                    err_type := SessionMgmtErrType.kNoError,
                    client := s.client, server := s.server } }
  else none

/-- `Rpc::send_disconnect_req_one` from `rpc_sm_retry.cc`: asserts a client
session in `kDisconnectInProgress`, then sends a `kDisconnectReq` carrying
the session's two metadata records to `server.hostname`. -/
def send_disconnect_req_one (s : Session) : Option SentPkt :=
  if s.is_client && (s.state == SessionState.kDisconnectInProgress) then
    some { dst := s.server.hostname,
           pkt := { pkt_type := SessionMgmtPktType.kDisconnectReq,
                    err_type := SessionMgmtErrType.kNoError,
                    client := s.client, server := s.server } }
  else none

/-- Modelled from the spec: `timer.h`'s `to_sec` is not under `src/`
(spec §6 lists the cycle clock and GHz calibration); cycles at `freq_ghz`
GHz last `cycles / (freq_ghz * 10^9)` seconds. -/
def to_sec (cycles : Nat) (freq_ghz : ℚ) : ℚ :=
  (cycles : ℚ) / (freq_ghz * 1000000000)

/-- `uint64_t` subtraction `a - b`, with the wraparound explicit. -/
def usub64 (a b : Nat) : Nat := (a + 2 ^ 64 - b % 2 ^ 64) % 2 ^ 64

/-- The per-thread `Rpc` state used by the retry engine: the cycle-counter
calibration, the append-only session table (`session_vec`, tombstones as
`none`), and the management retry queue.  Raw `Session *` pointers are
modelled as table indices (stable, since the table is append-only). -/
structure Rpc where
  freq_ghz : ℚ
  session_vec : List (Option Session)
  mgmt_retry_queue : List Nat
  deriving DecidableEq, Repr

/-- `Rpc::mgmt_retry_queue_contains`. -/
def Rpc.mgmt_retry_queue_contains (st : Rpc) (sid : Nat) : Bool :=
  st.mgmt_retry_queue.contains sid

/-- `Rpc::mgmt_retry_queue_add` from `rpc_sm_retry.cc`: asserts a non-null
client session not already queued, records `rdtsc()` (`cur_tsc`) in the
session's `mgmt_req_tsc`, and appends the session to the queue. -/
def Rpc.mgmt_retry_queue_add (st : Rpc) (sid : Nat) (cur_tsc : Nat) : Option Rpc :=
  match st.session_vec.get? sid with
  | some (some s) =>
    if s.is_client && !(st.mgmt_retry_queue_contains sid) then
      some { st with
             session_vec := st.session_vec.set sid
               (some { s with mgmt_req_tsc := cur_tsc }),
             mgmt_retry_queue := st.mgmt_retry_queue ++ [sid] }
    else none
  | _ => none

/-- `Rpc::mgmt_retry_queue_remove` from `rpc_sm_retry.cc`: asserts a
non-null client session currently queued, erases every occurrence
(erase/remove idiom), and asserts the queue shrank by exactly one. -/
def Rpc.mgmt_retry_queue_remove (st : Rpc) (sid : Nat) : Option Rpc :=
  match st.session_vec.get? sid with
  | some (some s) =>
    if s.is_client && st.mgmt_retry_queue_contains sid then
      let q2 := st.mgmt_retry_queue.filter (fun x => x ≠ sid)
      if q2.length = st.mgmt_retry_queue.length - 1 then
        some { st with mgmt_retry_queue := q2 }
      else none
    else none
  | _ => none

/-- The `elapsed_ms` local of `Rpc::mgmt_retry`:
`to_sec(cur_tsc - mgmt_req_tsc, freq_ghz) * 1000`, the `uint64_t`
subtraction made explicit. -/
def elapsed_ms (freq : ℚ) (cur_tsc : Nat) (s : Session) : ℚ :=
  to_sec (usub64 cur_tsc s.mgmt_req_tsc) freq * 1000

/-- The body of `Rpc::mgmt_retry`'s loop for one queued session, from
`rpc_sm_retry.cc` lines 75–108: assert the state is connect- or
disconnect-in-progress, assert a positive elapsed cycle count, convert to
milliseconds, and when `elapsed_ms > kSessionMgmtRetransMs` resend the SM
request matching the state and refresh `mgmt_req_tsc` to `rtsc` (the
`rdtsc()` taken after the resend).  There is no timeout branch. -/
def mgmt_retry_one (freq : ℚ) (cur_tsc rtsc : Nat) (s : Session) :
    Option (Session × List SentPkt) :=
  if s.state = SessionState.kConnectInProgress ∨
      s.state = SessionState.kDisconnectInProgress then
    if usub64 cur_tsc s.mgmt_req_tsc = 0 then none
    else if elapsed_ms freq cur_tsc s > (kSessionMgmtRetransMs : ℚ) then
      match s.state with
      | SessionState.kConnectInProgress =>
        (send_connect_req_one s).map
          (fun p => ({ s with mgmt_req_tsc := rtsc }, [p]))
      | SessionState.kDisconnectInProgress =>
        (send_disconnect_req_one s).map
          (fun p => ({ s with mgmt_req_tsc := rtsc }, [p]))
      | _ => none
    else some (s, [])
  else none

/-- The scan of `Rpc::mgmt_retry` over the queue: process each queued
session id in order against the session table, threading the table (only
`mgmt_req_tsc` fields change) and concatenating the datagrams sent.
`retx i` is the `rdtsc()` value taken for the `i`-th entry's refresh;
`none` models a failed assertion (including a null queued pointer). -/
def mgmt_retry_go (freq : ℚ) (cur : Nat) (retx : Nat → Nat) :
    List Nat → Nat → List (Option Session) →
    Option (List (Option Session) × List SentPkt)
  | [], _, vec => some (vec, [])
  | sid :: rest, i, vec =>
    match vec.get? sid with
    | some (some s) =>
      match mgmt_retry_one freq cur (retx i) s with
      | some (s2, sent) =>
        match mgmt_retry_go freq cur retx rest (i + 1) (vec.set sid (some s2)) with
        | some (vec2, sents) => some (vec2, sent ++ sents)
        | none => none
      | none => none
    | _ => none

/-- `Rpc::mgmt_retry` from `rpc_sm_retry.cc`: asserts a non-empty queue,
reads `rdtsc()` once (`cur`), and scans the queue. -/
def Rpc.mgmt_retry (st : Rpc) (cur : Nat) (retx : Nat → Nat) :
    Option (Rpc × List SentPkt) :=
  if st.mgmt_retry_queue = [] then none
  else
    (mgmt_retry_go st.freq_ghz cur retx st.mgmt_retry_queue 0 st.session_vec).map
      (fun p => ({ st with session_vec := p.1 }, p.2))

/-- The datagrams the scan sends, computed from the queue against the
table as it was when the scan started (meaningful when the queue has no
duplicates, since then each entry is read before it is written). -/
def scan_sents (freq : ℚ) (cur : Nat) (retx : Nat → Nat)
    (vec : List (Option Session)) : List Nat → Nat → List SentPkt
  | [], _ => []
  | sid :: rest, i =>
    (match vec.get? sid with
     | some (some s) =>
       match mgmt_retry_one freq cur (retx i) s with
       | some (_, sent) => sent
       | none => []
     | _ => []) ++ scan_sents freq cur retx vec rest (i + 1)

/-- Modelled from the spec: `bury_session` (`rpc_sm_api.cc`) is not under
`src/`; per spec §4.1 burying replaces the table slot with the tombstone. -/
def Rpc.bury_session (st : Rpc) (sid : Nat) : Rpc :=
  { st with session_vec := st.session_vec.set sid none }

/-- Modelled from the spec: `Rpc::destroy_session` (`rpc_sm_api.cc`) is not
under `src/`; only its declaration and doc comment are (`rpc.h`).  Spec §5:
rejected (returns `false`) while connection establishment is in progress or
when the argument is invalid; on a session already in `kError` it buries
the slot and returns `true` with no wire packet (the `Disconnected` event
fires synchronously); on a `kConnected` session it moves to
`kDisconnectInProgress`, sends the disconnect request, queues the session
for retry, and returns `true`.  Returns the flag, the new state, and the
datagrams sent. -/
def Rpc.destroy_session (st : Rpc) (sid : Nat) (cur_tsc : Nat) :
    Bool × Rpc × List SentPkt :=
  match st.session_vec.get? sid with
  | some (some s) =>
    if s.is_client then
      match s.state with
      | SessionState.kConnectInProgress => (false, st, [])
      | SessionState.kError => (true, st.bury_session sid, [])
      | SessionState.kConnected =>
        let s2 := { s with state := SessionState.kDisconnectInProgress,
                           mgmt_req_tsc := cur_tsc }
        (true,
         { st with session_vec := st.session_vec.set sid (some s2),
                   mgmt_retry_queue := st.mgmt_retry_queue ++ [sid] },
         (send_disconnect_req_one s2).toList)
      | _ => (false, st, [])
    else (false, st, [])
  | _ => (false, st, [])

/-- Round `off` up to a multiple of the alignment `a`. -/
def alignUp (off a : Nat) : Nat := (off + a - 1) / a * a

/-- Modelled from the spec: `kMaxHostnameLen` (`common.h`) and the
`RoutingInfo` byte-array size (`transport_types.h`) are not under `src/`;
spec §3 only bounds them ("bounded ASCII string", "fixed-size byte
array").  `sizeof(SessionMetadata)` for given buffer sizes, laid out per
spec §4.3 in declaration order with natural alignment: a 4-byte transport
enum, the hostname buffer, two 1-byte ids, a 4-byte session number, an
8-byte start sequence, the routing bytes, padded to 8-byte struct
alignment. -/
def sessionMetadataSizeOf (hostLen routeLen : Nat) : Nat :=
  alignUp (alignUp (alignUp (4 + hostLen + 1 + 1) 4 + 4) 8 + 8 + routeLen) 8

/-- Modelled from the spec: `sizeof(SessionMgmtPkt)` for given buffer
sizes — a 4-byte packet-type enum, a 4-byte error enum, then the two
metadata records back-to-back (spec §6), padded to 8-byte alignment. -/
def sessionMgmtPktSizeOf (hostLen routeLen : Nat) : Nat :=
  alignUp (8 + 2 * sessionMetadataSizeOf hostLen routeLen) 8

/-- The retry-queue invariant (spec §4.4/§8): every queued id denotes a
live client-role session in `kConnectInProgress` or
`kDisconnectInProgress`, and no id is queued twice. -/
def retry_queue_ok (st : Rpc) : Prop :=
  st.mgmt_retry_queue.Nodup ∧
    ∀ sid ∈ st.mgmt_retry_queue, ∃ s,
      st.session_vec.get? sid = some (some s) ∧ s.role = Role.kClient ∧
        (s.state = SessionState.kConnectInProgress ∨
          s.state = SessionState.kDisconnectInProgress)

/-- Hostname bytes of the example server, `"srv"` zero-terminated. -/
def exHost : List Nat := [115, 114, 118, 0]

/-- Hostname bytes of the example client, `"cli"` zero-terminated. -/
def exHostC : List Nat := [99, 108, 105, 0]

/-- Example client-side metadata. -/
def exMetaC : SessionMetadata :=
  { transport_type := 1, hostname := exHostC, app_tid := 0, phy_port := 0,
    session_num := 0, start_seq := 7, routing_info := [0] }

/-- Example server-side metadata. -/
def exMetaS : SessionMetadata :=
  { transport_type := 1, hostname := exHost, app_tid := 2, phy_port := 0,
    session_num := 4294967295, start_seq := 18446744073709551615,
    routing_info := [0] }

/-- Example client session, mid-connect, last SM request sent at cycle 0. -/
def exSess : Session :=
  { role := Role.kClient, state := SessionState.kConnectInProgress,
    client := exMetaC, server := exMetaS, mgmt_req_tsc := 0, is_cc := false }

/-- Example `Rpc` state at 1 GHz: one mid-connect client session, queued. -/
def exSt : Rpc :=
  { freq_ghz := 1, session_vec := [some exSess], mgmt_retry_queue := [0] }

/-- `exSess` after the scan refreshes its timestamp at cycle 60000001. -/
def exSess2 : Session := { exSess with mgmt_req_tsc := 60000001 }

/-- `exSt` after one scan at cycle 60000000 (60 ms elapsed). -/
def exSt2 : Rpc := { exSt with session_vec := [some exSess2] }

/-- The connect request the scan retransmits for `exSess`. -/
def exPkt : SentPkt :=
  { dst := exHost,
    pkt := { pkt_type := SessionMgmtPktType.kConnectReq,
             err_type := SessionMgmtErrType.kNoError,
             client := exMetaC, server := exMetaS } }

/-- `exSess2` after a second scan refreshes its timestamp at 120000001. -/
def exSess3 : Session := { exSess with mgmt_req_tsc := 120000001 }

/-- `exSt2` after a second scan at cycle 120000000 (a further 60 ms). -/
def exSt3 : Rpc := { exSt with session_vec := [some exSess3] }

/-- The SM request the scan retransmits for a queued session: a connect
request in `kConnectInProgress`, a disconnect request otherwise, carrying
the session's metadata pair, destined to `server.hostname`. -/
def smReqPkt (s : Session) : SentPkt :=
  { dst := s.server.hostname,
    pkt := { pkt_type := if s.state = SessionState.kConnectInProgress then
                           SessionMgmtPktType.kConnectReq
                         else SessionMgmtPktType.kDisconnectReq,
             err_type := SessionMgmtErrType.kNoError,
             client := s.client, server := s.server } }

/-- `k` event-loop ticks of the retry engine: tick `k - 1` runs first with
cycle count `curs (k - 1)` and refresh counts `retxs (k - 1)`, and the
resulting state runs the remaining ticks. -/
def mgmt_retry_iter (curs : Nat → Nat) (retxs : Nat → Nat → Nat) :
    Nat → Rpc → Option Rpc
  | 0, st => some st
  | Nat.succ k, st =>
    match st.mgmt_retry (curs k) (retxs k) with
    | some r => mgmt_retry_iter curs retxs k r.1
    | none => none

/-- Cycle counts for the two example ticks (tick 1 runs first). -/
def exCurs : Nat → Nat := fun n => if n = 1 then 60000000 else 120000000

/-- Refresh cycle counts for the two example ticks. -/
def exRetxs : Nat → Nat → Nat :=
  fun n _ => if n = 1 then 60000001 else 120000001

/-- A successful `mgmt_retry_one` leaves the session untouched or only
refreshes `mgmt_req_tsc` to `rtsc`. -/
theorem mgmt_retry_one_shape {freq : ℚ} {cur rtsc : Nat} {s s2 : Session}
    {sent : List SentPkt}
    (h : mgmt_retry_one freq cur rtsc s = some (s2, sent)) :
    s2 = s ∨ s2 = { s with mgmt_req_tsc := rtsc } := by
  unfold mgmt_retry_one at h
  split at h
  · split at h
    · exact absurd h (by simp)
    · split at h
      · split at h
        · cases hc : send_connect_req_one s with
          | none => rw [hc] at h; exact absurd h (by simp)
          | some p =>
            rw [hc] at h
            simp only [Option.map_some', Option.some.injEq, Prod.mk.injEq] at h
            exact Or.inr h.1.symm
        · cases hc : send_disconnect_req_one s with
          | none => rw [hc] at h; exact absurd h (by simp)
          | some p =>
            rw [hc] at h
            simp only [Option.map_some', Option.some.injEq, Prod.mk.injEq] at h
            exact Or.inr h.1.symm
        · exact absurd h (by simp)
      · simp only [Option.some.injEq, Prod.mk.injEq] at h
        exact Or.inl h.1.symm
  · exact absurd h (by simp)

/-- Characterization of the loop body on a well-formed queued session (the
retry-queue invariant plus a positive elapsed cycle count): it succeeds,
retransmits the request matching the state exactly when
`elapsed_ms > kSessionMgmtRetransMs`, and refreshes `mgmt_req_tsc` exactly
on retransmission. -/
theorem mgmt_retry_one_eq {freq : ℚ} {cur rtsc : Nat} {s : Session}
    (hrole : s.role = Role.kClient)
    (hstate : s.state = SessionState.kConnectInProgress ∨
      s.state = SessionState.kDisconnectInProgress)
    (helapsed : usub64 cur s.mgmt_req_tsc ≠ 0) :
    mgmt_retry_one freq cur rtsc s =
      if elapsed_ms freq cur s > (kSessionMgmtRetransMs : ℚ) then
        some ({ s with mgmt_req_tsc := rtsc }, [smReqPkt s])
      else some (s, []) := by
  unfold mgmt_retry_one
  rw [if_pos hstate, if_neg helapsed]
  rcases hstate with hs | hs
  · split
    · rw [hs]
      simp [send_connect_req_one, smReqPkt, Session.is_client, hrole, hs]
    · rfl
  · split
    · rw [hs]
      simp [send_disconnect_req_one, smReqPkt, Session.is_client, hrole, hs]
    · rfl

/-- Inversion of one step of the scan. -/
theorem mgmt_retry_go_cons_inv {freq : ℚ} {cur : Nat} {retx : Nat → Nat}
    {hd : Nat} {rest : List Nat} {i : Nat} {vec vec2 : List (Option Session)}
    {sents : List SentPkt}
    (h : mgmt_retry_go freq cur retx (hd :: rest) i vec = some (vec2, sents)) :
    ∃ s s2 sent1 sents2,
      vec.get? hd = some (some s) ∧
      mgmt_retry_one freq cur (retx i) s = some (s2, sent1) ∧
      mgmt_retry_go freq cur retx rest (i + 1) (vec.set hd (some s2)) =
        some (vec2, sents2) ∧
      sents = sent1 ++ sents2 := by
  simp only [mgmt_retry_go] at h
  cases hv : vec.get? hd with
  | none => rw [hv] at h; exact absurd h (by simp)
  | some os =>
    rw [hv] at h
    cases os with
    | none => exact absurd h (by simp)
    | some s =>
      dsimp only at h
      cases ho : mgmt_retry_one freq cur (retx i) s with
      | none => rw [ho] at h; exact absurd h (by simp)
      | some r =>
        obtain ⟨s2, sent1⟩ := r
        rw [ho] at h
        dsimp only at h
        cases hg : mgmt_retry_go freq cur retx rest (i + 1) (vec.set hd (some s2)) with
        | none => rw [hg] at h; exact absurd h (by simp)
        | some r2 =>
          obtain ⟨vecg, sentsg⟩ := r2
          rw [hg] at h
          dsimp only at h
          simp only [Option.some.injEq, Prod.mk.injEq] at h
          have hg2 : mgmt_retry_go freq cur retx rest (i + 1)
              (vec.set hd (some s2)) = some (vec2, sentsg) := by rw [hg, h.1]
          exact ⟨s, s2, sent1, sentsg, hv ▸ rfl, ho, hg2, h.2.symm⟩

/-- The scan leaves table slots it never visits untouched. -/
theorem mgmt_retry_go_not_mem {freq : ℚ} {cur : Nat} {retx : Nat → Nat} :
    ∀ {q : List Nat} {i : Nat} {vec vec2 : List (Option Session)}
      {sents : List SentPkt},
      mgmt_retry_go freq cur retx q i vec = some (vec2, sents) →
      ∀ sid, sid ∉ q → vec2.get? sid = vec.get? sid := by
  intro q
  induction q with
  | nil =>
    intro i vec vec2 sents h sid _
    simp only [mgmt_retry_go, Option.some.injEq, Prod.mk.injEq] at h
    rw [h.1]
  | cons hd rest ih =>
    intro i vec vec2 sents h sid hmem
    obtain ⟨s, s2, sent1, sents2, hv, ho, hg, -⟩ := mgmt_retry_go_cons_inv h
    have h2 := ih hg sid (fun hc => hmem (List.mem_cons_of_mem _ hc))
    rw [h2, List.get?_set_ne _ _
      (fun he => hmem (by rw [he]; exact List.mem_cons_self sid rest))]

/-- Frame property of the scan: every table slot is either untouched or
holds the same session with only `mgmt_req_tsc` changed. -/
theorem mgmt_retry_go_frame {freq : ℚ} {cur : Nat} {retx : Nat → Nat} :
    ∀ {q : List Nat} {i : Nat} {vec vec2 : List (Option Session)}
      {sents : List SentPkt},
      mgmt_retry_go freq cur retx q i vec = some (vec2, sents) →
      vec2.length = vec.length ∧
        ∀ sid, vec2.get? sid = vec.get? sid ∨
          ∃ s t, vec.get? sid = some (some s) ∧
            vec2.get? sid = some (some { s with mgmt_req_tsc := t }) := by
  intro q
  induction q with
  | nil =>
    intro i vec vec2 sents h
    simp only [mgmt_retry_go, Option.some.injEq, Prod.mk.injEq] at h
    exact ⟨by rw [h.1], fun sid => Or.inl (by rw [h.1])⟩
  | cons hd rest ih =>
    intro i vec vec2 sents h
    obtain ⟨s, s2, sent1, sents2, hv, ho, hg, -⟩ := mgmt_retry_go_cons_inv h
    obtain ⟨hlen, hpt⟩ := ih hg
    have hhd : vec.get? hd = some (some s) := hv
    have hs2 : s2 = s ∨ s2 = { s with mgmt_req_tsc := retx i } :=
      mgmt_retry_one_shape ho
    refine ⟨by rw [hlen, List.length_set], fun sid => ?_⟩
    rcases Decidable.em (sid = hd) with he | he
    · subst he
      obtain ⟨hlt, -⟩ := List.get?_eq_some.mp hv
      have hset : (vec.set sid (some s2)).get? sid = some (some s2) :=
        List.get?_set_eq_of_lt _ hlt
      rcases hpt sid with h1 | ⟨s3, t, h3, h4⟩
      · rcases hs2 with hs | hs
        · exact Or.inl (by rw [h1, hset, hs, hv])
        · exact Or.inr ⟨s, retx i, hv, by rw [h1, hset, hs]⟩
      · rw [hset, Option.some.injEq, Option.some.injEq] at h3
        rcases hs2 with hs | hs
        · exact Or.inr ⟨s, t, hv, by rw [h4, ← h3, hs]⟩
        · refine Or.inr ⟨s, t, hv, ?_⟩
          rw [h4, ← h3, hs]
    · rcases hpt sid with h1 | ⟨s3, t, h3, h4⟩
      · exact Or.inl (by rw [h1, List.get?_set_ne _ _ (fun hx => he hx.symm)])
      · rw [List.get?_set_ne _ _ (fun hx => he hx.symm)] at h3
        exact Or.inr ⟨s3, t, h3, h4⟩

/-- With a duplicate-free queue, the scan processes each queued session
against its entry in the original table, and stores the body's result. -/
theorem mgmt_retry_go_get {freq : ℚ} {cur : Nat} {retx : Nat → Nat} :
    ∀ {q : List Nat} {i : Nat} {vec vec2 : List (Option Session)}
      {sents : List SentPkt},
      q.Nodup →
      mgmt_retry_go freq cur retx q i vec = some (vec2, sents) →
      ∀ j sid, q.get? j = some sid →
        ∃ s s2 sent1, vec.get? sid = some (some s) ∧
          mgmt_retry_one freq cur (retx (i + j)) s = some (s2, sent1) ∧
          vec2.get? sid = some (some s2) := by
  intro q
  induction q with
  | nil => intro i vec vec2 sents _ h j sid hj; simp at hj
  | cons hd rest ih =>
    intro i vec vec2 sents hnd h j sid hj
    obtain ⟨s, s2, sent1, sents2, hv, ho, hg, -⟩ := mgmt_retry_go_cons_inv h
    obtain ⟨hhd, hndr⟩ := List.nodup_cons.mp hnd
    cases j with
    | zero =>
      simp only [List.get?_cons_zero, Option.some.injEq] at hj
      subst hj
      refine ⟨s, s2, sent1, hv, by simpa using ho, ?_⟩
      obtain ⟨hlt, -⟩ := List.get?_eq_some.mp hv
      rw [mgmt_retry_go_not_mem hg hd hhd]
      exact List.get?_set_eq_of_lt _ hlt
    | succ j =>
      simp only [List.get?_cons_succ] at hj
      have hne : sid ≠ hd := fun he => hhd (he ▸ List.get?_mem hj)
      obtain ⟨s3, s4, sent3, hv3, ho3, hvec3⟩ := ih hndr hg j sid hj
      rw [List.get?_set_ne _ _ (fun he => hne he.symm)] at hv3
      refine ⟨s3, s4, sent3, hv3, ?_, hvec3⟩
      have : i + 1 + j = i + (j + 1) := by omega
      rw [← this]
      exact ho3

/-- `scan_sents` only reads the queued slots of the table. -/
theorem scan_sents_congr {freq : ℚ} {cur : Nat} {retx : Nat → Nat} :
    ∀ {q : List Nat} {i : Nat} {v1 v2 : List (Option Session)},
      (∀ sid ∈ q, v1.get? sid = v2.get? sid) →
      scan_sents freq cur retx v1 q i = scan_sents freq cur retx v2 q i := by
  intro q
  induction q with
  | nil => intro i v1 v2 _; rfl
  | cons hd rest ih =>
    intro i v1 v2 hagree
    simp only [scan_sents]
    rw [hagree hd (List.mem_cons_self hd rest),
      ih (fun sid hm => hagree sid (List.mem_cons_of_mem _ hm))]

/-- With a duplicate-free queue, the datagrams the scan sends are exactly
`scan_sents` over the original table. -/
theorem mgmt_retry_go_sents {freq : ℚ} {cur : Nat} {retx : Nat → Nat} :
    ∀ {q : List Nat} {i : Nat} {vec vec2 : List (Option Session)}
      {sents : List SentPkt},
      q.Nodup →
      mgmt_retry_go freq cur retx q i vec = some (vec2, sents) →
      sents = scan_sents freq cur retx vec q i := by
  intro q
  induction q with
  | nil =>
    intro i vec vec2 sents _ h
    simp only [mgmt_retry_go, Option.some.injEq, Prod.mk.injEq] at h
    rw [← h.2]; rfl
  | cons hd rest ih =>
    intro i vec vec2 sents hnd h
    obtain ⟨s, s2, sent1, sents2, hv, ho, hg, hsents⟩ := mgmt_retry_go_cons_inv h
    obtain ⟨hhd, hndr⟩ := List.nodup_cons.mp hnd
    have hrest := ih hndr hg
    have hagree : ∀ sid ∈ rest, (vec.set hd (some s2)).get? sid = vec.get? sid :=
      fun sid hm => List.get?_set_ne _ _ (fun he => hhd (he.symm ▸ hm))
    rw [hsents, hrest, scan_sents_congr hagree]
    simp only [scan_sents, hv, ho]

/-- Under the retry-queue invariant and strictly advancing cycle counts,
the scan succeeds: every assertion in the loop holds. -/
theorem mgmt_retry_go_total {freq : ℚ} {cur : Nat} {retx : Nat → Nat} :
    ∀ {q : List Nat} {i : Nat} {vec : List (Option Session)},
      q.Nodup →
      (∀ sid ∈ q, ∃ s, vec.get? sid = some (some s) ∧
        s.role = Role.kClient ∧
        (s.state = SessionState.kConnectInProgress ∨
          s.state = SessionState.kDisconnectInProgress) ∧
        s.mgmt_req_tsc < cur) →
      cur < 2 ^ 64 →
      ∃ r, mgmt_retry_go freq cur retx q i vec = some r := by
  intro q
  induction q with
  | nil => intro i vec _ _ _; exact ⟨(vec, []), rfl⟩
  | cons hd rest ih =>
    intro i vec hnd hq hcur
    obtain ⟨hhd, hndr⟩ := List.nodup_cons.mp hnd
    obtain ⟨s, hv, hrole, hstate, htsc⟩ := hq hd (List.mem_cons_self hd rest)
    have helapsed : usub64 cur s.mgmt_req_tsc ≠ 0 := by
      unfold usub64
      have hb : s.mgmt_req_tsc % 2 ^ 64 = s.mgmt_req_tsc :=
        Nat.mod_eq_of_lt (lt_trans htsc hcur)
      rw [hb]
      have h1 : cur + 2 ^ 64 - s.mgmt_req_tsc = 2 ^ 64 + (cur - s.mgmt_req_tsc) := by
        omega
      rw [h1, Nat.add_mod_left]
      have h2 : cur - s.mgmt_req_tsc < 2 ^ 64 := by omega
      rw [Nat.mod_eq_of_lt h2]
      omega
    have hone := @mgmt_retry_one_eq freq cur (retx i) s hrole hstate helapsed
    have hstep : ∃ s2 sent1,
        mgmt_retry_one freq cur (retx i) s = some (s2, sent1) ∧
        (s2 = s ∨ s2 = { s with mgmt_req_tsc := retx i }) := by
      rw [hone]
      split
      · exact ⟨_, _, rfl, Or.inr rfl⟩
      · exact ⟨_, _, rfl, Or.inl rfl⟩
    obtain ⟨s2, sent1, ho, hs2⟩ := hstep
    have hq2 : ∀ sid ∈ rest, ∃ s3, (vec.set hd (some s2)).get? sid = some (some s3) ∧
        s3.role = Role.kClient ∧
        (s3.state = SessionState.kConnectInProgress ∨
          s3.state = SessionState.kDisconnectInProgress) ∧
        s3.mgmt_req_tsc < cur := by
      intro sid hm
      obtain ⟨s3, hv3, h3⟩ := hq sid (List.mem_cons_of_mem _ hm)
      refine ⟨s3, ?_, h3⟩
      rw [List.get?_set_ne _ _ (fun he => hhd (show hd ∈ rest by rw [he]; exact hm))]
      exact hv3
    obtain ⟨⟨vecr, sentsr⟩, hg⟩ := @ih (i + 1) (vec.set hd (some s2)) hndr hq2 hcur
    refine ⟨(vecr, sent1 ++ sentsr), ?_⟩
    simp only [mgmt_retry_go, hv, ho, hg]

/-- A successful loop body past the retransmission threshold refreshed the
timestamp and sent exactly the request matching the session state. -/
theorem mgmt_retry_one_retrans {freq : ℚ} {cur rtsc : Nat} {s s2 : Session}
    {sent : List SentPkt}
    (h : mgmt_retry_one freq cur rtsc s = some (s2, sent))
    (hgt : elapsed_ms freq cur s > (kSessionMgmtRetransMs : ℚ)) :
    s2 = { s with mgmt_req_tsc := rtsc } ∧ sent = [smReqPkt s] := by
  unfold mgmt_retry_one at h
  split at h
  · split at h
    · exact absurd h (by simp)
    · split at h
      · cases hc : send_connect_req_one s with
        | none => rw [hc] at h; exact absurd h (by simp)
        | some p =>
          rw [hc] at h
          have hp : p = smReqPkt s := by
            unfold send_connect_req_one at hc
            split at hc
            · rename_i hcond
              simp only [Bool.and_eq_true, beq_iff_eq] at hcond
              simp only [Option.some.injEq] at hc
              rw [← hc]
              unfold smReqPkt
              rw [if_pos hcond.2]
            · exact absurd hc (by simp)
          simp only [Option.map_some', Option.some.injEq, Prod.mk.injEq] at h
          exact ⟨h.1.symm, by rw [← h.2, hp]⟩
      · cases hc : send_disconnect_req_one s with
        | none => rw [hc] at h; exact absurd h (by simp)
        | some p =>
          rw [hc] at h
          have hp : p = smReqPkt s := by
            unfold send_disconnect_req_one at hc
            split at hc
            · rename_i hcond
              simp only [Bool.and_eq_true, beq_iff_eq] at hcond
              simp only [Option.some.injEq] at hc
              rw [← hc]
              unfold smReqPkt
              rw [if_neg (by rw [hcond.2]; intro hx; cases hx)]
            · exact absurd hc (by simp)
          simp only [Option.map_some', Option.some.injEq, Prod.mk.injEq] at h
          exact ⟨h.1.symm, by rw [← h.2, hp]⟩
      · exact absurd h (by simp)
  · exact absurd h (by simp)

/-- A successful loop body at or below the retransmission threshold leaves
the session untouched and sends nothing. -/
theorem mgmt_retry_one_noretrans {freq : ℚ} {cur rtsc : Nat} {s s2 : Session}
    {sent : List SentPkt}
    (h : mgmt_retry_one freq cur rtsc s = some (s2, sent))
    (hle : ¬ elapsed_ms freq cur s > (kSessionMgmtRetransMs : ℚ)) :
    s2 = s ∧ sent = [] := by
  unfold mgmt_retry_one at h
  split at h
  · split at h
    · exact absurd h (by simp)
    · simp only [Option.some.injEq, Prod.mk.injEq] at h
      exact ⟨h.1.symm, h.2.symm⟩
  · exact absurd h (by simp)

/-- The datagrams the loop body sends for a queued session all appear in
the scan's output. -/
theorem mgmt_retry_go_sent_mem {freq : ℚ} {cur : Nat} {retx : Nat → Nat} :
    ∀ {q : List Nat} {i : Nat} {vec vec2 : List (Option Session)}
      {sents : List SentPkt} {j sid : Nat} {s s2 : Session}
      {sent1 : List SentPkt},
      q.Nodup →
      mgmt_retry_go freq cur retx q i vec = some (vec2, sents) →
      q.get? j = some sid →
      vec.get? sid = some (some s) →
      mgmt_retry_one freq cur (retx (i + j)) s = some (s2, sent1) →
      ∀ p ∈ sent1, p ∈ sents := by
  intro q
  induction q with
  | nil => intro i vec vec2 sents j sid s s2 sent1 _ _ hj; simp at hj
  | cons hd rest ih =>
    intro i vec vec2 sents j sid s s2 sent1 hnd h hj hv ho p hp
    obtain ⟨s3, s4, sent3, sents2, hv3, ho3, hg, hsents⟩ := mgmt_retry_go_cons_inv h
    obtain ⟨hhd, hndr⟩ := List.nodup_cons.mp hnd
    cases j with
    | zero =>
      simp only [List.get?_cons_zero, Option.some.injEq] at hj
      subst hj
      rw [hv3, Option.some.injEq, Option.some.injEq] at hv
      subst hv
      rw [show i + 0 = i by omega, ho3, Option.some.injEq, Prod.mk.injEq] at ho
      rw [hsents]
      exact List.mem_append_left _ (ho.2 ▸ hp)
    | succ j =>
      simp only [List.get?_cons_succ] at hj
      have hne : sid ≠ hd := fun he => hhd (he ▸ List.get?_mem hj)
      have hv2 : (vec.set hd (some s4)).get? sid = some (some s) := by
        rw [List.get?_set_ne _ _ (fun he => hne he.symm)]
        exact hv
      have ho2 : mgmt_retry_one freq cur (retx (i + 1 + j)) s = some (s2, sent1) := by
        rw [show i + 1 + j = i + (j + 1) by omega]
        exact ho
      rw [hsents]
      exact List.mem_append_right _ (ih hndr hg hj hv2 ho2 p hp)

/-- Frame property of `Rpc::mgmt_retry`: the queue and calibration are
untouched, the table keeps its length, and each slot is untouched or keeps
its session with only `mgmt_req_tsc` changed. -/
theorem mgmt_retry_frame {st : Rpc} {cur : Nat} {retx : Nat → Nat}
    {r : Rpc × List SentPkt} (h : st.mgmt_retry cur retx = some r) :
    r.1.freq_ghz = st.freq_ghz ∧
    r.1.mgmt_retry_queue = st.mgmt_retry_queue ∧
    r.1.session_vec.length = st.session_vec.length ∧
    ∀ sid, r.1.session_vec.get? sid = st.session_vec.get? sid ∨
      ∃ s t, st.session_vec.get? sid = some (some s) ∧
        r.1.session_vec.get? sid = some (some { s with mgmt_req_tsc := t }) := by
  unfold Rpc.mgmt_retry at h
  split at h
  · exact absurd h (by simp)
  · cases hg : mgmt_retry_go st.freq_ghz cur retx st.mgmt_retry_queue 0 st.session_vec with
    | none => rw [hg] at h; exact absurd h (by simp)
    | some p =>
      rw [hg] at h
      simp only [Option.map_some', Option.some.injEq] at h
      obtain ⟨hlen, hpt⟩ := mgmt_retry_go_frame (by rw [hg, Prod.mk.eta])
      subst h
      exact ⟨rfl, rfl, hlen, hpt⟩

/-- Success and contents of `Rpc::mgmt_retry` unfolded to the scan. -/
theorem mgmt_retry_eq_some {st : Rpc} {cur : Nat} {retx : Nat → Nat}
    {r : Rpc × List SentPkt} (h : st.mgmt_retry cur retx = some r) :
    st.mgmt_retry_queue ≠ [] ∧
    mgmt_retry_go st.freq_ghz cur retx st.mgmt_retry_queue 0 st.session_vec =
      some (r.1.session_vec, r.2) ∧
    r.1 = { st with session_vec := r.1.session_vec } := by
  unfold Rpc.mgmt_retry at h
  split at h
  · exact absurd h (by simp)
  · rename_i hne
    cases hg : mgmt_retry_go st.freq_ghz cur retx st.mgmt_retry_queue 0 st.session_vec with
    | none => rw [hg] at h; exact absurd h (by simp)
    | some p =>
      rw [hg] at h
      simp only [Option.map_some', Option.some.injEq] at h
      subst h
      refine ⟨hne, ?_, rfl⟩
      rfl

/-- `strcmp`-equality agrees with equality of the zero-terminated string
contents (the bytes before the first zero), for terminated buffers. -/
theorem cstrEq_iff_takeWhile :
    ∀ {a b : List Nat}, 0 ∈ a → 0 ∈ b →
      (cstrEq a b = true ↔
        a.takeWhile (fun c => c != 0) = b.takeWhile (fun c => c != 0)) := by
  intro a
  induction a with
  | nil => intro b ha _; simp at ha
  | cons x xs ih =>
    intro b ha hb
    cases b with
    | nil => simp at hb
    | cons y ys =>
      by_cases hxy : x = y
      · subst hxy
        by_cases hx0 : x = 0
        · subst hx0
          exact ⟨fun _ => rfl, fun _ => rfl⟩
        · have h0a : (0 : Nat) ∈ xs := by
            rcases List.mem_cons.mp ha with h | h
            · exact absurd h.symm hx0
            · exact h
          have h0b : (0 : Nat) ∈ ys := by
            rcases List.mem_cons.mp hb with h | h
            · exact absurd h.symm hx0
            · exact h
          have hbne : (x != 0) = true := bne_iff_ne.mpr hx0
          simp only [cstrEq, if_neg (by simp : ¬x ≠ x), if_neg hx0,
            List.takeWhile, hbne, List.cons.injEq, true_and]
          exact ih h0a h0b
      · have hfalse : cstrEq (x :: xs) (y :: ys) = false := by
          simp only [cstrEq, if_pos hxy]
        rw [hfalse]
        simp only [Bool.false_eq_true, false_iff]
        by_cases hx0 : x = 0
        · subst hx0
          have hy0 : y ≠ 0 := fun he => hxy he.symm
          simp [List.takeWhile, bne_iff_ne.mpr hy0]
        · by_cases hy0 : y = 0
          · subst hy0
            simp [List.takeWhile, bne_iff_ne.mpr hx0]
          · simp only [List.takeWhile, bne_iff_ne.mpr hx0, bne_iff_ne.mpr hy0]
            simp [hxy]

/-- C6: `SessionMetadata` equality holds exactly when the hostnames agree
as zero-terminated strings and the thread ids and session numbers agree;
the transport kind, physical port, start sequence and routing info of
either side have no effect on it. -/
theorem claim_C6_metadata_opEq (a b : SessionMetadata)
    (ha : 0 ∈ a.hostname) (hb : 0 ∈ b.hostname) :
    (SessionMetadata.opEq a b = true ↔
      (a.hostname.takeWhile (fun c => c != 0) =
          b.hostname.takeWhile (fun c => c != 0) ∧
        a.app_tid = b.app_tid ∧ a.session_num = b.session_num)) ∧
    (∀ t p q ri t2 p2 q2 ri2,
      SessionMetadata.opEq
        { a with transport_type := t, phy_port := p, start_seq := q,
                 routing_info := ri }
        { b with transport_type := t2, phy_port := p2, start_seq := q2,
                 routing_info := ri2 } =
      SessionMetadata.opEq a b) := by
  constructor
  · unfold SessionMetadata.opEq
    simp only [Bool.and_eq_true, beq_iff_eq]
    rw [and_assoc, cstrEq_iff_takeWhile ha hb]
  · intro t p q ri t2 p2 q2 ri2
    rfl

/-- C6 witness: two metadata records at the same location compare equal,
and stay equal after changing every ignored field of both. -/
theorem claim_C6_witness :
    (SessionMetadata.opEq exMetaS { exMetaS with start_seq := 0 } = true ↔
      (exMetaS.hostname.takeWhile (fun c => c != 0) =
          ({ exMetaS with start_seq := 0 } : SessionMetadata).hostname.takeWhile
            (fun c => c != 0) ∧
        exMetaS.app_tid = ({ exMetaS with start_seq := 0 } : SessionMetadata).app_tid ∧
        exMetaS.session_num =
          ({ exMetaS with start_seq := 0 } : SessionMetadata).session_num)) ∧
    (∀ t p q ri t2 p2 q2 ri2,
      SessionMetadata.opEq
        { exMetaS with transport_type := t, phy_port := p, start_seq := q,
                       routing_info := ri }
        { ({ exMetaS with start_seq := 0 } : SessionMetadata) with
            transport_type := t2, phy_port := p2, start_seq := q2,
            routing_info := ri2 } =
      SessionMetadata.opEq exMetaS { exMetaS with start_seq := 0 }) :=
  claim_C6_metadata_opEq exMetaS { exMetaS with start_seq := 0 }
    (by simp [exMetaS, exHost]) (by simp [exMetaS, exHost])

/-- C5: applied to any request-type SM packet, `send_resp_mut` flips the
type to the corresponding response, writes the error kind, leaves both
metadata records unchanged, and sends the result to the client hostname. -/
theorem claim_C5_send_resp_mut (pkt : SessionMgmtPkt) (e : SessionMgmtErrType)
    (h : session_mgmt_is_pkt_type_req pkt.pkt_type = true) :
    ∃ t, session_mgmt_pkt_type_req_to_resp pkt.pkt_type = some t ∧
      pkt.send_resp_mut e =
        some ({ pkt with pkt_type := t, err_type := e }, pkt.client.hostname) ∧
      session_mgmt_is_pkt_type_req t = false := by
  obtain ⟨ty, er, cl, sv⟩ := pkt
  cases ty with
  | kConnectReq =>
    exact ⟨SessionMgmtPktType.kConnectResp, rfl, rfl, rfl⟩
  | kDisconnectReq =>
    exact ⟨SessionMgmtPktType.kDisconnectResp, rfl, rfl, rfl⟩
  | kConnectResp => exact absurd h (by simp [session_mgmt_is_pkt_type_req])
  | kDisconnectResp => exact absurd h (by simp [session_mgmt_is_pkt_type_req])

/-- C5 witness: a concrete connect request becomes a connect response with
the written error, unchanged metadata, destined to the client hostname. -/
theorem claim_C5_witness :
    ∃ t, session_mgmt_pkt_type_req_to_resp
        (SessionMgmtPkt.mk SessionMgmtPktType.kConnectReq
          SessionMgmtErrType.kNoError exMetaC exMetaS).pkt_type = some t ∧
      (SessionMgmtPkt.mk SessionMgmtPktType.kConnectReq
          SessionMgmtErrType.kNoError exMetaC exMetaS).send_resp_mut
          SessionMgmtErrType.kInvalidRemoteRpcId =
        some ({ SessionMgmtPkt.mk SessionMgmtPktType.kConnectReq
                  SessionMgmtErrType.kNoError exMetaC exMetaS with
                pkt_type := t,
                err_type := SessionMgmtErrType.kInvalidRemoteRpcId },
              (SessionMgmtPkt.mk SessionMgmtPktType.kConnectReq
                SessionMgmtErrType.kNoError exMetaC exMetaS).client.hostname) ∧
      session_mgmt_is_pkt_type_req t = false :=
  claim_C5_send_resp_mut
    (SessionMgmtPkt.mk SessionMgmtPktType.kConnectReq
      SessionMgmtErrType.kNoError exMetaC exMetaS)
    SessionMgmtErrType.kInvalidRemoteRpcId rfl

/-- `alignUp` is monotone in the offset. -/
theorem alignUp_mono {a off off2 : Nat} (h : off ≤ off2) :
    alignUp off a ≤ alignUp off2 a :=
  Nat.mul_le_mul_right a (Nat.div_le_div_right (by omega))

/-- `sizeof(SessionMetadata)` is monotone in the two buffer sizes. -/
theorem sessionMetadataSizeOf_mono {h1 h2 r1 r2 : Nat}
    (hh : h1 ≤ h2) (hr : r1 ≤ r2) :
    sessionMetadataSizeOf h1 r1 ≤ sessionMetadataSizeOf h2 r2 := by
  unfold sessionMetadataSizeOf
  refine alignUp_mono ?_
  have s1 : alignUp (4 + h1 + 1 + 1) 4 ≤ alignUp (4 + h2 + 1 + 1) 4 :=
    alignUp_mono (by omega)
  have s2 : alignUp (alignUp (4 + h1 + 1 + 1) 4 + 4) 8 ≤
      alignUp (alignUp (4 + h2 + 1 + 1) 4 + 4) 8 :=
    alignUp_mono (by omega)
  omega

/-- C7: for any hostname buffer up to 256 bytes and routing-info buffer up
to 128 bytes, the SM wire packet is strictly smaller than 1400 bytes, so
it fits one UDP datagram without fragmentation. -/
theorem claim_C7_pkt_size (hostLen routeLen : Nat)
    (hh : hostLen ≤ 256) (hr : routeLen ≤ 128) :
    sessionMgmtPktSizeOf hostLen routeLen < 1400 := by
  have hm : sessionMetadataSizeOf hostLen routeLen ≤
      sessionMetadataSizeOf 256 128 :=
    sessionMetadataSizeOf_mono hh hr
  have hp : sessionMgmtPktSizeOf hostLen routeLen ≤
      sessionMgmtPktSizeOf 256 128 := by
    unfold sessionMgmtPktSizeOf
    exact alignUp_mono (by omega)
  have : sessionMgmtPktSizeOf 256 128 = 824 := by decide
  omega

/-- C7 witness: at the reference buffer sizes (128-byte hostname, 48-byte
routing info) the packet measures under 1400 bytes. -/
theorem claim_C7_witness : sessionMgmtPktSizeOf 128 48 < 1400 :=
  claim_C7_pkt_size 128 48 (by decide) (by decide)

/-- C8: `destroy_session` on a session still connecting returns `false`
and leaves the whole `Rpc` state — table slot, state, retry queue —
unchanged, sending nothing. -/
theorem claim_C8_destroy_midconnect (st : Rpc) (sid cur : Nat) (s : Session)
    (hs : st.session_vec.get? sid = some (some s))
    (hcip : s.state = SessionState.kConnectInProgress) :
    st.destroy_session sid cur = (false, st, []) := by
  unfold Rpc.destroy_session
  rw [hs]
  dsimp only
  by_cases hc : s.is_client
  · rw [if_pos hc, hcip]
  · rw [if_neg hc]

/-- C8 witness: destroying the example mid-connect session is rejected and
changes nothing. -/
theorem claim_C8_witness : exSt.destroy_session 0 777 = (false, exSt, []) :=
  claim_C8_destroy_midconnect exSt 0 777 exSess rfl rfl

/-- C9: one scan of `mgmt_retry` mutates at most the queued sessions'
`mgmt_req_tsc`: the retry queue is untouched, no table slot is buried or
created, and every surviving session keeps its state, role and metadata,
however much time has elapsed. -/
theorem claim_C9_frame (st : Rpc) (cur : Nat) (retx : Nat → Nat)
    (r : Rpc × List SentPkt) (h : st.mgmt_retry cur retx = some r) :
    r.1.mgmt_retry_queue = st.mgmt_retry_queue ∧
    r.1.session_vec.length = st.session_vec.length ∧
    (∀ sid s, st.session_vec.get? sid = some (some s) →
      ∃ s2, r.1.session_vec.get? sid = some (some s2) ∧
        s2.state = s.state ∧ s2.role = s.role ∧
        s2.client = s.client ∧ s2.server = s.server) ∧
    (∀ sid, st.session_vec.get? sid = some none →
      r.1.session_vec.get? sid = some none) := by
  obtain ⟨-, hq, hlen, hpt⟩ := mgmt_retry_frame h
  refine ⟨hq, hlen, fun sid s hs => ?_, fun sid hs => ?_⟩
  · rcases hpt sid with h1 | ⟨s0, t, h0, h2⟩
    · exact ⟨s, by rw [h1, hs], rfl, rfl, rfl, rfl⟩
    · rw [hs, Option.some.injEq, Option.some.injEq] at h0
      exact ⟨{ s0 with mgmt_req_tsc := t }, h2, by rw [← h0], by rw [← h0],
        by rw [← h0], by rw [← h0]⟩
  · rcases hpt sid with h1 | ⟨s0, t, h0, h2⟩
    · rw [h1, hs]
    · rw [hs] at h0; exact absurd h0 (by simp)

/-- C9 witness: the example scan at 60 ms keeps the queue, the slot and
the session's state, role and metadata. -/
theorem claim_C9_witness :
    exSt2.mgmt_retry_queue = exSt.mgmt_retry_queue ∧
    exSt2.session_vec.length = exSt.session_vec.length ∧
    (∀ sid s, exSt.session_vec.get? sid = some (some s) →
      ∃ s2, exSt2.session_vec.get? sid = some (some s2) ∧
        s2.state = s.state ∧ s2.role = s.role ∧
        s2.client = s.client ∧ s2.server = s.server) ∧
    (∀ sid, exSt.session_vec.get? sid = some none →
      exSt2.session_vec.get? sid = some none) :=
  claim_C9_frame exSt 60000000 (fun _ => 60000001) (exSt2, [exPkt])
    (by norm_num [Rpc.mgmt_retry, mgmt_retry_go, mgmt_retry_one, elapsed_ms,
      to_sec, usub64, send_connect_req_one, exSt, exSess, exSt2, exSess2,
      exPkt, Session.is_client, kSessionMgmtRetransMs, exMetaS, exMetaC,
      exHost, exHostC])

/-- C10: with a non-empty, duplicate-free queue of live client sessions in
connect- or disconnect-in-progress whose `mgmt_req_tsc` the current cycle
count strictly exceeds, `mgmt_retry` completes: every assertion holds and
the unreachable default branch is not taken. -/
theorem claim_C10_asserts (st : Rpc) (cur : Nat) (retx : Nat → Nat)
    (hne : st.mgmt_retry_queue ≠ [])
    (hnd : st.mgmt_retry_queue.Nodup)
    (hq : ∀ sid ∈ st.mgmt_retry_queue, ∃ s,
      st.session_vec.get? sid = some (some s) ∧ s.role = Role.kClient ∧
      (s.state = SessionState.kConnectInProgress ∨
        s.state = SessionState.kDisconnectInProgress) ∧
      s.mgmt_req_tsc < cur)
    (hcur : cur < 2 ^ 64) :
    ∃ r, st.mgmt_retry cur retx = some r := by
  obtain ⟨p, hg⟩ := @mgmt_retry_go_total st.freq_ghz cur retx
    st.mgmt_retry_queue 0 st.session_vec hnd hq hcur
  refine ⟨({ st with session_vec := p.1 }, p.2), ?_⟩
  unfold Rpc.mgmt_retry
  rw [if_neg hne, hg]
  rfl

/-- C10 witness: the example queue satisfies the preconditions and the
scan completes. -/
theorem claim_C10_witness :
    ∃ r, exSt.mgmt_retry 60000000 (fun _ => 60000001) = some r :=
  claim_C10_asserts exSt 60000000 (fun _ => 60000001) (by decide) (by decide)
    (by
      intro sid hm
      rw [show exSt.mgmt_retry_queue = [0] from rfl, List.mem_singleton] at hm
      subst hm
      exact ⟨exSess, rfl, rfl, Or.inl rfl, by decide⟩)
    (by decide)

/-- C4: the retry-queue invariant — queued ids denote live client sessions
in connect- or disconnect-in-progress, each queued at most once — is
preserved by `mgmt_retry_queue_add` (when the added session satisfies it),
by `mgmt_retry_queue_remove`, and by the `mgmt_retry` scan. -/
theorem claim_C4_queue_invariant (st : Rpc) (hok : retry_queue_ok st) :
    (∀ sid s cur st2, st.session_vec.get? sid = some (some s) →
      s.role = Role.kClient →
      (s.state = SessionState.kConnectInProgress ∨
        s.state = SessionState.kDisconnectInProgress) →
      st.mgmt_retry_queue_add sid cur = some st2 → retry_queue_ok st2) ∧
    (∀ sid st2, st.mgmt_retry_queue_remove sid = some st2 →
      retry_queue_ok st2) ∧
    (∀ cur retx r, st.mgmt_retry cur retx = some r → retry_queue_ok r.1) := by
  obtain ⟨hnd, hmem⟩ := hok
  refine ⟨?_, ?_, ?_⟩
  · intro sid s cur st2 hs hrole hstate hadd
    unfold Rpc.mgmt_retry_queue_add at hadd
    rw [hs] at hadd
    dsimp only at hadd
    split at hadd
    · rename_i hcond
      simp only [Bool.and_eq_true, Bool.not_eq_eq_eq_not, Bool.not_true] at hcond
      have hnotmem : sid ∉ st.mgmt_retry_queue := by
        intro hm
        have : st.mgmt_retry_queue_contains sid = true := by
          unfold Rpc.mgmt_retry_queue_contains
          exact List.elem_eq_true_of_mem hm
        rw [this] at hcond
        exact absurd hcond.2 (by simp)
      simp only [Option.some.injEq] at hadd
      subst hadd
      constructor
      · simp only [List.nodup_append, List.nodup_singleton, true_and]
        exact ⟨hnd, fun x hx hx1 => hnotmem ((List.mem_singleton.mp hx1) ▸ hx)⟩
      · intro sid2 hm2
        rcases List.mem_append.mp hm2 with hm2 | hm2
        · obtain ⟨s3, hs3, h3⟩ := hmem sid2 hm2
          have hne2 : sid ≠ sid2 := fun he => hnotmem (he ▸ hm2)
          exact ⟨s3, by rw [List.get?_set_ne _ _ hne2]; exact hs3, h3⟩
        · rw [List.mem_singleton.mp hm2]
          obtain ⟨hlt, -⟩ := List.get?_eq_some.mp hs
          exact ⟨{ s with mgmt_req_tsc := cur },
            List.get?_set_eq_of_lt _ hlt, hrole, hstate⟩
    · exact absurd hadd (by simp)
  · intro sid st2 hrem
    unfold Rpc.mgmt_retry_queue_remove at hrem
    cases hv : st.session_vec.get? sid with
    | none => rw [hv] at hrem; exact absurd hrem (by simp)
    | some os =>
      rw [hv] at hrem
      cases os with
      | none => exact absurd hrem (by simp)
      | some s =>
        dsimp only at hrem
        split at hrem
        · split at hrem
          · simp only [Option.some.injEq] at hrem
            subst hrem
            constructor
            · exact hnd.filter _
            · intro sid2 hm2
              exact hmem sid2 (List.mem_of_mem_filter hm2)
          · exact absurd hrem (by simp)
        · exact absurd hrem (by simp)
  · intro cur retx r h
    obtain ⟨-, hqeq, -, hpt⟩ := mgmt_retry_frame h
    constructor
    · rw [hqeq]; exact hnd
    · intro sid hm
      rw [hqeq] at hm
      obtain ⟨s, hs, hrole, hstate⟩ := hmem sid hm
      rcases hpt sid with h1 | ⟨s0, t, h0, h2⟩
      · exact ⟨s, by rw [h1]; exact hs, hrole, hstate⟩
      · rw [hs, Option.some.injEq, Option.some.injEq] at h0
        exact ⟨{ s0 with mgmt_req_tsc := t }, h2, by rw [← h0]; exact hrole,
          by rw [← h0]; exact hstate⟩

/-- C4 witness: the invariant holds for the example state and is carried
through the example scan. -/
theorem claim_C4_witness : retry_queue_ok exSt2 :=
  (claim_C4_queue_invariant exSt
    ⟨by decide, by
      intro sid hm
      rw [show exSt.mgmt_retry_queue = [0] from rfl, List.mem_singleton] at hm
      subst hm
      exact ⟨exSess, rfl, rfl, Or.inl rfl⟩⟩).2.2
    60000000 (fun _ => 60000001) (exSt2, [exPkt])
    (by norm_num [Rpc.mgmt_retry, mgmt_retry_go, mgmt_retry_one, elapsed_ms,
      to_sec, usub64, send_connect_req_one, exSt, exSess, exSt2, exSess2,
      exPkt, Session.is_client, kSessionMgmtRetransMs, exMetaS, exMetaC,
      exHost, exHostC])

/-- C1 counterexample: the example session has been waiting 60 ms, past
`kSessionMgmtTimeoutMs = 50`; yet the scan leaves it in
`kConnectInProgress` (not `kError`), still queued, its slot still live —
`mgmt_retry` has no timeout branch. -/
theorem claim_C1_counterexample :
    elapsed_ms exSt.freq_ghz 60000000 exSess > (kSessionMgmtTimeoutMs : ℚ) ∧
    exSt.mgmt_retry 60000000 (fun _ => 60000001) = some (exSt2, [exPkt]) ∧
    exSt2.mgmt_retry_queue = [0] ∧
    exSt2.session_vec.get? 0 = some (some exSess2) ∧
    exSess2.state = SessionState.kConnectInProgress ∧
    exSess2.state ≠ SessionState.kError := by
  refine ⟨?_, ?_, rfl, rfl, rfl, by decide⟩
  · norm_num [elapsed_ms, to_sec, usub64, exSt, exSess, kSessionMgmtTimeoutMs]
  · norm_num [Rpc.mgmt_retry, mgmt_retry_go, mgmt_retry_one, elapsed_ms,
      to_sec, usub64, send_connect_req_one, exSt, exSess, exSt2, exSess2,
      exPkt, Session.is_client, kSessionMgmtRetransMs, exMetaS, exMetaC,
      exHost, exHostC]

/-- C1 amended: for a queued session whose elapsed time exceeds
`kSessionMgmtTimeoutMs`, the scan does not fail, dequeue or bury it; it
retransmits the request matching its state and refreshes `mgmt_req_tsc`,
exactly as for any session past `kSessionMgmtRetransMs`. -/
theorem claim_C1_amended (st : Rpc) (cur : Nat) (retx : Nat → Nat)
    (r : Rpc × List SentPkt) (j sid : Nat) (s : Session)
    (hnd : st.mgmt_retry_queue.Nodup)
    (h : st.mgmt_retry cur retx = some r)
    (hj : st.mgmt_retry_queue.get? j = some sid)
    (hs : st.session_vec.get? sid = some (some s))
    (htmo : elapsed_ms st.freq_ghz cur s > (kSessionMgmtTimeoutMs : ℚ)) :
    r.1.mgmt_retry_queue = st.mgmt_retry_queue ∧
    r.1.session_vec.get? sid = some (some { s with mgmt_req_tsc := retx j }) ∧
    smReqPkt s ∈ r.2 := by
  obtain ⟨-, hgo, -⟩ := mgmt_retry_eq_some h
  obtain ⟨-, hqeq, -, -⟩ := mgmt_retry_frame h
  obtain ⟨s1, s2, sent1, hv1, ho1, hvec⟩ := mgmt_retry_go_get hnd hgo j sid hj
  rw [hs, Option.some.injEq, Option.some.injEq] at hv1
  subst hv1
  rw [Nat.zero_add] at ho1
  have hgt : elapsed_ms st.freq_ghz cur s > (kSessionMgmtRetransMs : ℚ) := by
    refine lt_trans ?_ htmo
    norm_num [kSessionMgmtRetransMs, kSessionMgmtTimeoutMs]
  obtain ⟨hs2, hsent1⟩ := mgmt_retry_one_retrans ho1 hgt
  subst hs2
  refine ⟨hqeq, hvec, ?_⟩
  refine mgmt_retry_go_sent_mem hnd hgo hj hs (by rw [Nat.zero_add]; exact ho1)
    (smReqPkt s) ?_
  rw [hsent1]
  exact List.mem_singleton.mpr rfl

/-- C1 witness: the amended behaviour on the 60 ms example. -/
theorem claim_C1_witness :
    exSt2.mgmt_retry_queue = exSt.mgmt_retry_queue ∧
    exSt2.session_vec.get? 0 =
      some (some { exSess with mgmt_req_tsc := 60000001 }) ∧
    smReqPkt exSess ∈ [exPkt] :=
  claim_C1_amended exSt 60000000 (fun _ => 60000001) (exSt2, [exPkt]) 0 0
    exSess (by decide)
    (by norm_num [Rpc.mgmt_retry, mgmt_retry_go, mgmt_retry_one, elapsed_ms,
      to_sec, usub64, send_connect_req_one, exSt, exSess, exSt2, exSess2,
      exPkt, Session.is_client, kSessionMgmtRetransMs, exMetaS, exMetaC,
      exHost, exHostC])
    rfl rfl
    (by norm_num [elapsed_ms, to_sec, usub64, exSt, exSess,
      kSessionMgmtTimeoutMs])

/-- C3 counterexample: at 60 ms elapsed — above `kSessionMgmtTimeoutMs`,
hence outside the claimed retransmission window — the scan still
retransmits the connect request and refreshes the timestamp. -/
theorem claim_C3_counterexample :
    elapsed_ms exSt.freq_ghz 60000000 exSess > (kSessionMgmtTimeoutMs : ℚ) ∧
    exSt.mgmt_retry 60000000 (fun _ => 60000001) = some (exSt2, [exPkt]) ∧
    exPkt.pkt.pkt_type = SessionMgmtPktType.kConnectReq ∧
    exSess2.mgmt_req_tsc = 60000001 := by
  refine ⟨?_, ?_, rfl, rfl⟩
  · norm_num [elapsed_ms, to_sec, usub64, exSt, exSess, kSessionMgmtTimeoutMs]
  · norm_num [Rpc.mgmt_retry, mgmt_retry_go, mgmt_retry_one, elapsed_ms,
      to_sec, usub64, send_connect_req_one, exSt, exSess, exSt2, exSess2,
      exPkt, Session.is_client, kSessionMgmtRetransMs, exMetaS, exMetaC,
      exHost, exHostC]

/-- C3 amended: during one scan, a queued session is retransmitted exactly
when `elapsed_ms > kSessionMgmtRetransMs` — with no upper bound; the
request matches the session state (connect for `kConnectInProgress`,
disconnect for `kDisconnectInProgress`), and `mgmt_req_tsc` is refreshed
to the cycle count taken after the resend, exactly on retransmission. -/
theorem claim_C3_amended (st : Rpc) (cur : Nat) (retx : Nat → Nat)
    (r : Rpc × List SentPkt) (j sid : Nat) (s : Session)
    (hnd : st.mgmt_retry_queue.Nodup)
    (h : st.mgmt_retry cur retx = some r)
    (hj : st.mgmt_retry_queue.get? j = some sid)
    (hs : st.session_vec.get? sid = some (some s)) :
    r.2 = scan_sents st.freq_ghz cur retx st.session_vec
      st.mgmt_retry_queue 0 ∧
    mgmt_retry_one st.freq_ghz cur (retx j) s =
      (if elapsed_ms st.freq_ghz cur s > (kSessionMgmtRetransMs : ℚ) then
        some ({ s with mgmt_req_tsc := retx j }, [smReqPkt s])
      else some (s, [])) ∧
    r.1.session_vec.get? sid = some (some
      (if elapsed_ms st.freq_ghz cur s > (kSessionMgmtRetransMs : ℚ) then
        { s with mgmt_req_tsc := retx j } else s)) ∧
    (s.state = SessionState.kConnectInProgress →
      (smReqPkt s).pkt.pkt_type = SessionMgmtPktType.kConnectReq) ∧
    (s.state = SessionState.kDisconnectInProgress →
      (smReqPkt s).pkt.pkt_type = SessionMgmtPktType.kDisconnectReq) := by
  obtain ⟨-, hgo, -⟩ := mgmt_retry_eq_some h
  obtain ⟨s1, s2, sent1, hv1, ho1, hvec⟩ := mgmt_retry_go_get hnd hgo j sid hj
  rw [hs, Option.some.injEq, Option.some.injEq] at hv1
  subst hv1
  rw [Nat.zero_add] at ho1
  have hsents := mgmt_retry_go_sents hnd hgo
  refine ⟨hsents, ?_, ?_, ?_, ?_⟩
  · by_cases hgt : elapsed_ms st.freq_ghz cur s > (kSessionMgmtRetransMs : ℚ)
    · obtain ⟨hs2, hsent1⟩ := mgmt_retry_one_retrans ho1 hgt
      rw [if_pos hgt, ho1, hs2, hsent1]
    · obtain ⟨hs2, hsent1⟩ := mgmt_retry_one_noretrans ho1 hgt
      rw [if_neg hgt, ho1, hs2, hsent1]
  · by_cases hgt : elapsed_ms st.freq_ghz cur s > (kSessionMgmtRetransMs : ℚ)
    · obtain ⟨hs2, -⟩ := mgmt_retry_one_retrans ho1 hgt
      rw [if_pos hgt, ← hs2]
      exact hvec
    · obtain ⟨hs2, -⟩ := mgmt_retry_one_noretrans ho1 hgt
      rw [if_neg hgt, ← hs2]
      exact hvec
  · intro hcip
    unfold smReqPkt
    rw [if_pos hcip]
  · intro hdip
    unfold smReqPkt
    rw [if_neg (by rw [hdip]; intro hx; cases hx)]

/-- C3 witness: the amended characterization on the 60 ms example. -/
theorem claim_C3_witness :
    [exPkt] = scan_sents exSt.freq_ghz 60000000 (fun _ => 60000001)
      exSt.session_vec exSt.mgmt_retry_queue 0 ∧
    mgmt_retry_one exSt.freq_ghz 60000000 60000001 exSess =
      (if elapsed_ms exSt.freq_ghz 60000000 exSess >
          (kSessionMgmtRetransMs : ℚ) then
        some ({ exSess with mgmt_req_tsc := 60000001 }, [smReqPkt exSess])
      else some (exSess, [])) ∧
    exSt2.session_vec.get? 0 = some (some
      (if elapsed_ms exSt.freq_ghz 60000000 exSess >
          (kSessionMgmtRetransMs : ℚ) then
        { exSess with mgmt_req_tsc := 60000001 } else exSess)) ∧
    (exSess.state = SessionState.kConnectInProgress →
      (smReqPkt exSess).pkt.pkt_type = SessionMgmtPktType.kConnectReq) ∧
    (exSess.state = SessionState.kDisconnectInProgress →
      (smReqPkt exSess).pkt.pkt_type = SessionMgmtPktType.kDisconnectReq) :=
  claim_C3_amended exSt 60000000 (fun _ => 60000001) (exSt2, [exPkt]) 0 0
    exSess (by decide)
    (by norm_num [Rpc.mgmt_retry, mgmt_retry_go, mgmt_retry_one, elapsed_ms,
      to_sec, usub64, send_connect_req_one, exSt, exSess, exSt2, exSess2,
      exPkt, Session.is_client, kSessionMgmtRetransMs, exMetaS, exMetaC,
      exHost, exHostC])
    rfl rfl

/-- C2 counterexample: with every SM datagram dropped, after two ticks and
120 ms of wall-clock time — beyond `kSessionMgmtTimeoutMs` plus a full
60 ms tick — the example client session is still `kConnectInProgress`:
no terminal state, no `ConnectFailed`, is ever reached. -/
theorem claim_C2_counterexample :
    exSess.state = SessionState.kConnectInProgress ∧
    exSess.mgmt_req_tsc = 0 ∧
    to_sec 120000000 exSt.freq_ghz * 1000 >
      (kSessionMgmtTimeoutMs : ℚ) + to_sec 60000000 exSt.freq_ghz * 1000 ∧
    mgmt_retry_iter exCurs exRetxs 2 exSt = some exSt3 ∧
    exSt3.session_vec.get? 0 = some (some exSess3) ∧
    exSess3.state = SessionState.kConnectInProgress ∧
    exSess3.state ≠ SessionState.kConnected ∧
    exSess3.state ≠ SessionState.kError ∧
    exSess3.state ≠ SessionState.kDisconnected := by
  refine ⟨rfl, rfl, ?_, ?_, rfl, rfl, by decide, by decide, by decide⟩
  · norm_num [to_sec, exSt, kSessionMgmtTimeoutMs]
  · norm_num [mgmt_retry_iter, Rpc.mgmt_retry, mgmt_retry_go, mgmt_retry_one,
      elapsed_ms, to_sec, usub64, send_connect_req_one, exSt, exSess, exSt2,
      exSess2, exSt3, exSess3, exPkt, Session.is_client,
      kSessionMgmtRetransMs, exMetaS, exMetaC, exHost, exHostC,
      exCurs, exRetxs]

/-- C2 amended: however many retry-engine ticks run (with all SM datagrams
dropped, so only the retry engine acts), a session keeps its state — only
`mgmt_req_tsc` can change — and the queue is untouched: the retry engine
gives no time-bounded terminal guarantee at all. -/
theorem claim_C2_amended (curs : Nat → Nat) (retxs : Nat → Nat → Nat) :
    ∀ (k : Nat) (st st2 : Rpc) (sid : Nat) (s : Session),
      mgmt_retry_iter curs retxs k st = some st2 →
      st.session_vec.get? sid = some (some s) →
      st2.mgmt_retry_queue = st.mgmt_retry_queue ∧
      ∃ t, st2.session_vec.get? sid =
        some (some { s with mgmt_req_tsc := t }) := by
  intro k
  induction k with
  | zero =>
    intro st st2 sid s h hs
    simp only [mgmt_retry_iter, Option.some.injEq] at h
    subst h
    exact ⟨rfl, s.mgmt_req_tsc, by rw [hs]⟩
  | succ k ih =>
    intro st st2 sid s h hs
    simp only [mgmt_retry_iter] at h
    cases hr : st.mgmt_retry (curs k) (retxs k) with
    | none => rw [hr] at h; exact absurd h (by simp)
    | some r =>
      rw [hr] at h
      dsimp only at h
      obtain ⟨-, hq, -, hpt⟩ := mgmt_retry_frame hr
      rcases hpt sid with h1 | ⟨s0, t0, h0, h2⟩
      · obtain ⟨hq2, t, ht⟩ := ih r.1 st2 sid s h (by rw [h1]; exact hs)
        exact ⟨by rw [hq2, hq], t, ht⟩
      · rw [hs, Option.some.injEq, Option.some.injEq] at h0
        subst h0
        obtain ⟨hq2, t, ht⟩ := ih r.1 st2 sid _ h h2
        exact ⟨by rw [hq2, hq], t, ht⟩

/-- C2 witness: the amended behaviour across the two example ticks. -/
theorem claim_C2_witness :
    exSt3.mgmt_retry_queue = exSt.mgmt_retry_queue ∧
    ∃ t, exSt3.session_vec.get? 0 =
      some (some { exSess with mgmt_req_tsc := t }) :=
  claim_C2_amended exCurs exRetxs 2 exSt exSt3 0 exSess
    (by norm_num [mgmt_retry_iter, Rpc.mgmt_retry, mgmt_retry_go,
      mgmt_retry_one, elapsed_ms, to_sec, usub64, send_connect_req_one,
      exSt, exSess, exSt2, exSess2, exSt3, exSess3, exPkt,
      Session.is_client, kSessionMgmtRetransMs, exMetaS, exMetaC, exHost,
      exHostC, exCurs, exRetxs])
    rfl

end ERpc

